import Mathlib

/-!
Shallow embedding of the booking lifecycle engine of the car-sharing backend:
the `Booking` data model, the booking/car repositories (executable semantics
following `BookingRepositoryMock` and the SQL `BookingRepository`, which agree),
the `BookingStateTransitionValidator`, and the `BookingService` operations
`create`, `get` and `update`.  Dates are modelled as `Int` (epoch milliseconds,
the order used by JavaScript `Date` comparisons); ids as `Nat`.
-/

namespace Carsharing

/-- The five booking states of `booking-state.ts`. -/
inductive BookingState where
  | PENDING
  | CONFIRMED
  | PICKED_UP
  | RETURNED
  | CANCELED
deriving DecidableEq, Repr

/-- A car, reduced to the fields the booking engine reads: its id and owner. -/
structure Car where
  id : Nat
  ownerId : Nat
deriving DecidableEq, Repr

/-- `BookingProperties` of `booking.ts`. -/
structure Booking where
  id : Nat
  carId : Nat
  renterId : Nat
  state : BookingState
  startDate : Int
  endDate : Int
deriving DecidableEq, Repr

/-- `UserBookingRole`: the role used by the state-transition validator. -/
inductive UserBookingRole where
  | OWNER
  | RENTER
deriving DecidableEq, Repr

/-- The domain error taxonomy of the booking engine. -/
inductive BookingError where
  | InvalidBookingDatesError (startDate endDate : Int) (reason : String)
  | CarNotFoundError (carId : Nat)
  | BookingNotFoundError (bookingId : Nat)
  | CarNotAvailableError (carId : Nat) (startDate endDate : Int)
  | BookingAccessDeniedError (bookingId : Nat)
  | InvalidBookingStateTransitionError (bookingId : Nat) (fromState toState : BookingState)
deriving DecidableEq, Repr

/-- The backing store: the bookings table (with the mock repository's id
counter) and the cars table. -/
structure Store where
  bookings : List Booking
  nextId : Nat
  cars : List Car
deriving DecidableEq, Repr

/-- `Except<BookingProperties, 'id'>`: the input of `BookingService.create`. -/
structure BookingCreateData where
  carId : Nat
  renterId : Nat
  state : BookingState
  startDate : Int
  endDate : Int
deriving DecidableEq, Repr

/-- `Partial<Except<BookingProperties, 'id' | 'carId' | 'renterId'>>`:
the input of `BookingService.update`; a `none` field is absent. -/
structure BookingUpdates where
  state : Option BookingState
  startDate : Option Int
  endDate : Option Int
deriving DecidableEq, Repr

namespace CarRepository

/-- `carRepository.get`: succeeds with the car, or fails with
`CarNotFoundError` when no car has the given id. -/
def get (cars : List Car) (carId : Nat) : Except BookingError Car :=
  match cars.find? (fun car => car.id == carId) with
  | some car => .ok car
  | none => .error (.CarNotFoundError carId)

end CarRepository

namespace BookingRepository

/-- `bookingRepository.get`: succeeds with the first booking with the given
id, or fails with `BookingNotFoundError`. -/
def get (bookings : List Booking) (id : Nat) : Except BookingError Booking :=
  match bookings.find? (fun b => b.id == id) with
  | some b => .ok b
  | none => .error (.BookingNotFoundError id)

/-- `bookingRepository.findOverlappingBookings`: all stored bookings on the
car, other than `excludeBookingId`, that are not CANCELED and whose interval
overlaps the candidate half-open interval
(`startDate < booking.endDate && booking.startDate < endDate`). -/
def findOverlappingBookings (bookings : List Booking) (carId : Nat)
    (startDate endDate : Int) (excludeBookingId : Option Nat) : List Booking :=
  bookings.filter fun booking => decide
    (excludeBookingId ≠ some booking.id ∧
     booking.carId = carId ∧
     booking.state ≠ BookingState.CANCELED ∧
     startDate < booking.endDate ∧ booking.startDate < endDate)

/-- `bookingRepository.insert` (mock semantics): assign `nextId` as the id,
append the booking, increment the counter. -/
def insert (s : Store) (data : BookingCreateData) : Booking × Store :=
  let booking : Booking :=
    { id := s.nextId
      carId := data.carId
      renterId := data.renterId
      state := data.state
      startDate := data.startDate
      endDate := data.endDate }
  (booking, { s with bookings := s.bookings ++ [booking], nextId := s.nextId + 1 })

/-- Replace the first stored booking whose id matches the new booking's id
(the mock's `findIndex` followed by an indexed assignment). -/
def replaceById : List Booking → Booking → List Booking
  | [], _ => []
  | b :: rest, nb => if b.id = nb.id then nb :: rest else b :: replaceById rest nb

/-- `bookingRepository.update`: fails with `BookingNotFoundError` when no
stored booking has the id, otherwise replaces the stored row. -/
def update (bookings : List Booking) (booking : Booking) :
    Except BookingError (List Booking) :=
  if bookings.any (fun b => b.id == booking.id) then
    .ok (replaceById bookings booking)
  else
    .error (.BookingNotFoundError booking.id)

end BookingRepository

namespace BookingStateTransitionValidator

/-- One row of the legal-transition table. -/
structure StateTransition where
  fromState : BookingState
  toState : BookingState
  allowedRoles : List UserBookingRole
deriving DecidableEq, Repr

/-- `BookingStateTransitionValidator.TRANSITIONS`. -/
def TRANSITIONS : List StateTransition :=
  [ { fromState := .PENDING, toState := .CONFIRMED, allowedRoles := [.OWNER] },
    { fromState := .PENDING, toState := .CANCELED, allowedRoles := [.OWNER] },
    { fromState := .CONFIRMED, toState := .PICKED_UP, allowedRoles := [.RENTER] },
    { fromState := .PICKED_UP, toState := .RETURNED, allowedRoles := [.RENTER] } ]

/-- `BookingStateTransitionValidator.validate`. -/
def validate (currentState newState : BookingState) (userRole : UserBookingRole)
    (bookingId : Nat) : Except BookingError Unit :=
  if currentState = newState then
    .ok ()
  else
    match TRANSITIONS.find? (fun t =>
        t.fromState == currentState && t.toState == newState) with
    | none => .error (.InvalidBookingStateTransitionError bookingId currentState newState)
    | some transition =>
      if transition.allowedRoles.contains userRole then
        .ok ()
      else
        .error (.InvalidBookingStateTransitionError bookingId currentState newState)

end BookingStateTransitionValidator

namespace BookingService

/-- `BookingService.validateBookingDates`. -/
def validateBookingDates (startDate endDate now : Int) : Except BookingError Unit :=
  if startDate ≥ endDate then
    .error (.InvalidBookingDatesError startDate endDate "End date must be after start date")
  else if startDate ≤ now then
    .error (.InvalidBookingDatesError startDate endDate "Start date must be in the future")
  else
    .ok ()

/-- `BookingService.validateCarAvailability`: car lookup first, then the
overlap query; any overlap fails with `CarNotAvailableError`. -/
def validateCarAvailability (s : Store) (carId : Nat) (startDate endDate : Int)
    (excludeBookingId : Option Nat) : Except BookingError Unit :=
  match CarRepository.get s.cars carId with
  | .error e => .error e
  | .ok _ =>
    if 0 < (BookingRepository.findOverlappingBookings s.bookings carId startDate
        endDate excludeBookingId).length then
      .error (.CarNotAvailableError carId startDate endDate)
    else
      .ok ()

/-- `BookingService.assertBookingAccess`. -/
def assertBookingAccess (booking : Booking) (car : Car) (userId : Nat) :
    Except BookingError Unit :=
  let isRenter := booking.renterId = userId
  let isOwner := car.ownerId = userId
  if ¬isRenter ∧ ¬isOwner then
    .error (.BookingAccessDeniedError booking.id)
  else
    .ok ()

/-- The body of `BookingService.create` (inside the transaction): validate
dates, validate availability, then insert with the state forced to PENDING. -/
def createTx (s : Store) (data : BookingCreateData) (now : Int) :
    Except BookingError (Booking × Store) :=
  match validateBookingDates data.startDate data.endDate now with
  | .error e => .error e
  | .ok _ =>
    match validateCarAvailability s data.carId data.startDate data.endDate none with
    | .error e => .error e
    | .ok _ =>
      .ok (BookingRepository.insert s { data with state := BookingState.PENDING })

/-- `BookingService.create`: the transactional wrapper rolls the store back
to `s` when the body fails. -/
def create (s : Store) (data : BookingCreateData) (now : Int) :
    Except BookingError Booking × Store :=
  match createTx s data now with
  | .error e => (.error e, s)
  | .ok (booking, s2) => (.ok booking, s2)

/-- `BookingService.get`: fetch the booking, fetch its car, assert access. -/
def get (s : Store) (id : Nat) (userId : Nat) : Except BookingError Booking :=
  match BookingRepository.get s.bookings id with
  | .error e => .error e
  | .ok booking =>
    match CarRepository.get s.cars booking.carId with
    | .error e => .error e
    | .ok car =>
      match assertBookingAccess booking car userId with
      | .error e => .error e
      | .ok _ => .ok booking

/-- The role the caller plays for state-transition validation:
`isOwner ? OWNER : RENTER`. -/
def callerRole (car : Car) (userId : Nat) : UserBookingRole :=
  if car.ownerId = userId then UserBookingRole.OWNER else UserBookingRole.RENTER

/-- The `if (updates.state)` block of `BookingService.update`: validate the
requested transition when a state is supplied. -/
def updateValidateState (booking : Booking) (updates : BookingUpdates)
    (userRole : UserBookingRole) (id : Nat) : Except BookingError Unit :=
  match updates.state with
  | some newState =>
    BookingStateTransitionValidator.validate booking.state newState userRole id
  | none => .ok ()

/-- The `if (updates.startDate || updates.endDate)` block of
`BookingService.update`: only when a date is supplied, validate the effective
interval (unspecified field defaulting to the stored value) and re-check
availability excluding this booking. -/
def updateValidateDates (s : Store) (booking : Booking) (updates : BookingUpdates)
    (id : Nat) (now : Int) : Except BookingError Unit :=
  if updates.startDate.isSome || updates.endDate.isSome then
    match validateBookingDates (updates.startDate.getD booking.startDate)
        (updates.endDate.getD booking.endDate) now with
    | .error e => .error e
    | .ok _ =>
      validateCarAvailability s booking.carId
        (updates.startDate.getD booking.startDate)
        (updates.endDate.getD booking.endDate) (some id)
  else
    .ok ()

/-- `new Booking({...booking, ...updates, id})`: the merged snapshot. -/
def mergedBooking (booking : Booking) (updates : BookingUpdates) (id : Nat) : Booking :=
  { id := id
    carId := booking.carId
    renterId := booking.renterId
    state := updates.state.getD booking.state
    startDate := updates.startDate.getD booking.startDate
    endDate := updates.endDate.getD booking.endDate }

/-- The body of `BookingService.update` (inside the transaction): fetch
booking and car, assert access, validate a requested state transition with
the caller's role, revalidate dates and availability only when a date field
is supplied, then persist the merged booking. -/
def updateTx (s : Store) (id : Nat) (updates : BookingUpdates) (userId : Nat)
    (now : Int) : Except BookingError (Booking × Store) :=
  match BookingRepository.get s.bookings id with
  | .error e => .error e
  | .ok booking =>
    match CarRepository.get s.cars booking.carId with
    | .error e => .error e
    | .ok car =>
      match assertBookingAccess booking car userId with
      | .error e => .error e
      | .ok _ =>
        match updateValidateState booking updates (callerRole car userId) id with
        | .error e => .error e
        | .ok _ =>
          match updateValidateDates s booking updates id now with
          | .error e => .error e
          | .ok _ =>
            match BookingRepository.update s.bookings (mergedBooking booking updates id) with
            | .error e => .error e
            | .ok bookings2 =>
              .ok (mergedBooking booking updates id, { s with bookings := bookings2 })

/-- `BookingService.update`: the transactional wrapper rolls the store back
to `s` when the body fails. -/
def update (s : Store) (id : Nat) (updates : BookingUpdates) (userId : Nat)
    (now : Int) : Except BookingError Booking × Store :=
  match updateTx s id updates userId now with
  | .error e => (.error e, s)
  | .ok (booking, s2) => (.ok booking, s2)

end BookingService

/-- The stores reachable from an empty booking store (any cars table) by
successful `create` and `update` calls. -/
inductive Reachable : Store → Prop where
  | init (cars : List Car) : Reachable { bookings := [], nextId := 1, cars := cars }
  | create (s : Store) (data : BookingCreateData) (now : Int) (b : Booking) (s2 : Store) :
      Reachable s → BookingService.create s data now = (.ok b, s2) → Reachable s2
  | update (s : Store) (id : Nat) (updates : BookingUpdates) (userId : Nat)
      (now : Int) (b : Booking) (s2 : Store) :
      Reachable s → BookingService.update s id updates userId now = (.ok b, s2) →
      Reachable s2

/-- Helper: the validator's decision as a Boolean table (identity transitions
plus the four role-gated edges). -/
def allowedTransition : BookingState -> BookingState -> UserBookingRole -> Bool
  | .PENDING, .CONFIRMED, .OWNER => true
  | .PENDING, .CANCELED, .OWNER => true
  | .CONFIRMED, .PICKED_UP, .RENTER => true
  | .PICKED_UP, .RETURNED, .RENTER => true
  | cur, nxt, _ => cur == nxt

/-- Demo fixtures for concrete witnesses. -/
def demoCar : Car := { id := 1, ownerId := 10 }
def demoStore0 : Store := { bookings := [], nextId := 1, cars := [demoCar] }

def demoBooking : Booking :=
  { id := 1, carId := 1, renterId := 2, state := .PENDING, startDate := 100, endDate := 200 }

def demoStore1 : Store := { bookings := [demoBooking], nextId := 2, cars := [demoCar] }

def demoCreateData : BookingCreateData :=
  { carId := 1, renterId := 2, state := .CONFIRMED, startDate := 100, endDate := 200 }

/-- Ids are pairwise distinct. -/
def UniqueIds (l : List Booking) : Prop := List.Pairwise (fun a b => a.id ≠ b.id) l

/-- No two distinct non-CANCELED bookings on the same car have overlapping
half-open intervals. -/
def NoOverlaps (l : List Booking) : Prop :=
  ∀ b1 ∈ l, ∀ b2 ∈ l, b1.id ≠ b2.id → b1.carId = b2.carId →
    b1.state ≠ BookingState.CANCELED → b2.state ≠ BookingState.CANCELED →
    ¬(b1.startDate < b2.endDate ∧ b2.startDate < b1.endDate)

/-- The inductive invariant of the booking store. -/
def GoodStore (s : Store) : Prop :=
  UniqueIds s.bookings ∧ (∀ b ∈ s.bookings, b.id < s.nextId) ∧ NoOverlaps s.bookings
/-- The demo booking after the owner confirms it. -/
def demoBookingConfirmed : Booking :=
  { id := 1, carId := 1, renterId := 2, state := .CONFIRMED, startDate := 100, endDate := 200 }

/-- The demo store after the owner confirms the demo booking. -/
def demoStore2 : Store :=
  { bookings := [demoBookingConfirmed], nextId := 2, cars := [demoCar] }

/-- A second demo booking, adjacent to the first. -/
def demoBooking2 : Booking :=
  { id := 2, carId := 1, renterId := 2, state := .PENDING, startDate := 200, endDate := 300 }

/-- The demo store after a second successful adjacent create. -/
def demoStore3 : Store :=
  { bookings := [demoBooking, demoBooking2], nextId := 3, cars := [demoCar] }

theorem validate_eq (currentState newState : BookingState) (userRole : UserBookingRole)
    (bookingId : Nat) :
    BookingStateTransitionValidator.validate currentState newState userRole bookingId =
      if allowedTransition currentState newState userRole then
        .ok ()
      else
        .error (.InvalidBookingStateTransitionError bookingId currentState newState) := by
  cases currentState <;> cases newState <;> cases userRole <;> rfl

/-- Claim C3: an identity transition always succeeds whatever the role; a
proper transition succeeds exactly on the four role-gated edges
PENDING->CONFIRMED (owner), PENDING->CANCELED (owner),
CONFIRMED->PICKED_UP (renter), PICKED_UP->RETURNED (renter); every other
attempt fails with `InvalidBookingStateTransitionError` carrying the booking
id, the current state and the requested state. -/
theorem C3_state_transition_validation (currentState newState : BookingState)
    (userRole : UserBookingRole) (bookingId : Nat) :
    (currentState = newState →
      BookingStateTransitionValidator.validate currentState newState userRole bookingId =
        .ok ()) ∧
    (currentState ≠ newState →
      (BookingStateTransitionValidator.validate currentState newState userRole bookingId =
          .ok () ↔
        ((currentState = .PENDING ∧ newState = .CONFIRMED ∧ userRole = .OWNER) ∨
         (currentState = .PENDING ∧ newState = .CANCELED ∧ userRole = .OWNER) ∨
         (currentState = .CONFIRMED ∧ newState = .PICKED_UP ∧ userRole = .RENTER) ∨
         (currentState = .PICKED_UP ∧ newState = .RETURNED ∧ userRole = .RENTER)))) ∧
    (BookingStateTransitionValidator.validate currentState newState userRole bookingId ≠
        .ok () →
      BookingStateTransitionValidator.validate currentState newState userRole bookingId =
        .error (.InvalidBookingStateTransitionError bookingId currentState newState)) := by
  simp only [validate_eq]
  cases currentState <;> cases newState <;> cases userRole <;>
    simp [allowedTransition]

/-- Claim C4: `findOverlappingBookings` returns exactly the stored bookings
on the car, not CANCELED, distinct from `excludeBookingId`, satisfying the
half-open overlap test `existing.start < end AND existing.end > start`; in
particular bookings adjacent to the candidate interval are not returned. -/
theorem C4_findOverlappingBookings_exact (bookings : List Booking) (carId : Nat)
    (startDate endDate : Int) (excludeBookingId : Option Nat) (b : Booking) :
    (b ∈ BookingRepository.findOverlappingBookings bookings carId startDate endDate
        excludeBookingId ↔
      (b ∈ bookings ∧ b.carId = carId ∧ b.state ≠ BookingState.CANCELED ∧
       excludeBookingId ≠ some b.id ∧ b.startDate < endDate ∧ b.endDate > startDate)) ∧
    (b.endDate = startDate →
      b ∉ BookingRepository.findOverlappingBookings bookings carId startDate endDate
        excludeBookingId) ∧
    (b.startDate = endDate →
      b ∉ BookingRepository.findOverlappingBookings bookings carId startDate endDate
        excludeBookingId) := by
  have hmem : b ∈ BookingRepository.findOverlappingBookings bookings carId startDate endDate
      excludeBookingId ↔
      (b ∈ bookings ∧ b.carId = carId ∧ b.state ≠ BookingState.CANCELED ∧
       excludeBookingId ≠ some b.id ∧ b.startDate < endDate ∧ b.endDate > startDate) := by
    simp [BookingRepository.findOverlappingBookings, List.mem_filter]
    tauto
  refine ⟨hmem, ?_, ?_⟩
  · intro he hb
    have := hmem.mp hb
    omega
  · intro he hb
    have := hmem.mp hb
    omega

/-- Membership in the overlap query result, unfolded. -/
theorem mem_findOverlappingBookings {bookings : List Booking} {carId : Nat}
    {startDate endDate : Int} {excludeBookingId : Option Nat} {b : Booking} :
    b ∈ BookingRepository.findOverlappingBookings bookings carId startDate endDate
        excludeBookingId ↔
      (b ∈ bookings ∧ excludeBookingId ≠ some b.id ∧ b.carId = carId ∧
       b.state ≠ BookingState.CANCELED ∧ startDate < b.endDate ∧ b.startDate < endDate) := by
  simp [BookingRepository.findOverlappingBookings, List.mem_filter]
theorem validateBookingDates_ok_iff {sd ed now : Int} :
    BookingService.validateBookingDates sd ed now = .ok () ↔ (sd < ed ∧ now < sd) := by
  unfold BookingService.validateBookingDates
  split_ifs <;> simp <;> omega

theorem findOverlapping_nil_no_overlap {l : List Booking} {c : Nat} {sd ed : Int}
    {ex : Option Nat}
    (h : BookingRepository.findOverlappingBookings l c sd ed ex = []) :
    ∀ b ∈ l, ex ≠ some b.id → b.carId = c → b.state ≠ BookingState.CANCELED →
      ¬(sd < b.endDate ∧ b.startDate < ed) := by
  rintro b hb hex hcar hst ⟨h1, h2⟩
  have hmem : b ∈ BookingRepository.findOverlappingBookings l c sd ed ex :=
    mem_findOverlappingBookings.mpr ⟨hb, hex, hcar, hst, h1, h2⟩
  rw [h] at hmem
  cases hmem

theorem validateBookingDates_error_inv {sd ed now : Int} {e : BookingError}
    (h : BookingService.validateBookingDates sd ed now = .error e) :
    (ed ≤ sd ∨ sd ≤ now) ∧ ∃ r, e = .InvalidBookingDatesError sd ed r := by
  unfold BookingService.validateBookingDates at h
  split_ifs at h with h1 h2
  · injection h with h
    exact ⟨Or.inl (by omega), _, h.symm⟩
  · injection h with h
    exact ⟨Or.inr h2, _, h.symm⟩

theorem validateBookingDates_invalid {sd ed now : Int} (h : ed ≤ sd ∨ sd ≤ now) :
    ∃ r, BookingService.validateBookingDates sd ed now =
      .error (.InvalidBookingDatesError sd ed r) := by
  unfold BookingService.validateBookingDates
  split_ifs with h1 h2
  · exact ⟨_, rfl⟩
  · exact ⟨_, rfl⟩
  · omega

theorem carGet_error_inv {cars : List Car} {carId : Nat} {e : BookingError}
    (h : CarRepository.get cars carId = .error e) : e = .CarNotFoundError carId := by
  unfold CarRepository.get at h
  cases hf : cars.find? (fun car => car.id == carId) with
  | none =>
    rw [hf] at h
    simp only at h
    exact (Except.error.inj h).symm
  | some car =>
    rw [hf] at h
    simp at h

theorem validateCarAvailability_ok_inv {s : Store} {carId : Nat} {sd ed : Int}
    {ex : Option Nat}
    (h : BookingService.validateCarAvailability s carId sd ed ex = .ok ()) :
    (∃ car, CarRepository.get s.cars carId = .ok car) ∧
    BookingRepository.findOverlappingBookings s.bookings carId sd ed ex = [] := by
  unfold BookingService.validateCarAvailability at h
  cases hc : CarRepository.get s.cars carId <;> rw [hc] at h
  · simp at h
  · split_ifs at h with hl
    exact ⟨⟨_, rfl⟩, by simpa using hl⟩

theorem validateCarAvailability_error_inv {s : Store} {carId : Nat} {sd ed : Int}
    {ex : Option Nat} {e : BookingError}
    (h : BookingService.validateCarAvailability s carId sd ed ex = .error e) :
    e = .CarNotFoundError carId ∨ e = .CarNotAvailableError carId sd ed := by
  unfold BookingService.validateCarAvailability at h
  cases hc : CarRepository.get s.cars carId <;> rw [hc] at h
  · simp at h
    exact Or.inl (h ▸ carGet_error_inv hc)
  · split_ifs at h
    simp_all

theorem createTx_ok_inv {s : Store} {data : BookingCreateData} {now : Int}
    {p : Booking × Store} (h : BookingService.createTx s data now = .ok p) :
    p.1 = { id := s.nextId, carId := data.carId, renterId := data.renterId,
            state := .PENDING, startDate := data.startDate, endDate := data.endDate } ∧
    p.2 = { s with bookings := s.bookings ++ [p.1], nextId := s.nextId + 1 } ∧
    BookingRepository.findOverlappingBookings s.bookings data.carId data.startDate
      data.endDate none = [] ∧
    data.startDate < data.endDate ∧ now < data.startDate ∧
    (∃ car, CarRepository.get s.cars data.carId = .ok car) := by
  unfold BookingService.createTx at h
  cases hd : BookingService.validateBookingDates data.startDate data.endDate now <;>
    rw [hd] at h
  · simp at h
  · cases ha : BookingService.validateCarAvailability s data.carId data.startDate
        data.endDate none <;> rw [ha] at h
    · simp at h
    · rename_i u1 u2
      cases u1; cases u2
      obtain ⟨h1, h2⟩ := validateBookingDates_ok_iff.mp hd
      obtain ⟨hcar, hov⟩ := validateCarAvailability_ok_inv ha
      simp only [Except.ok.injEq] at h
      subst h
      exact ⟨rfl, rfl, hov, h1, h2, hcar⟩

theorem create_ok_inv {s : Store} {data : BookingCreateData} {now : Int}
    {b : Booking} {s2 : Store}
    (h : BookingService.create s data now = (.ok b, s2)) :
    b = { id := s.nextId, carId := data.carId, renterId := data.renterId,
          state := .PENDING, startDate := data.startDate, endDate := data.endDate } ∧
    s2 = { s with bookings := s.bookings ++ [b], nextId := s.nextId + 1 } ∧
    BookingRepository.findOverlappingBookings s.bookings data.carId data.startDate
      data.endDate none = [] ∧
    data.startDate < data.endDate ∧ now < data.startDate := by
  unfold BookingService.create at h
  cases hTx : BookingService.createTx s data now <;> rw [hTx] at h
  · simp at h
  · rename_i p
    obtain ⟨hb, hs2, hov, hd1, hd2, _⟩ := createTx_ok_inv hTx
    simp only [Prod.mk.injEq, Except.ok.injEq] at h
    obtain ⟨hb2, hs22⟩ := h
    subst hb2; subst hs22
    exact ⟨hb, hs2, hov, hd1, hd2⟩

theorem create_error_fst {s : Store} {data : BookingCreateData} {now : Int} {e : BookingError}
    (h : BookingService.createTx s data now = .error e) :
    BookingService.create s data now = (.error e, s) := by
  unfold BookingService.create
  rw [h]

theorem create_fst_error_iff {s : Store} {data : BookingCreateData} {now : Int}
    {e : BookingError} :
    (BookingService.create s data now).1 = .error e ↔
      BookingService.createTx s data now = .error e := by
  unfold BookingService.create
  cases hTx : BookingService.createTx s data now with
  | error e2 => simp
  | ok p => obtain ⟨b, s2⟩ := p; simp

theorem createTx_error_inv {s : Store} {data : BookingCreateData} {now : Int}
    {e : BookingError} (h : BookingService.createTx s data now = .error e) :
    (∃ r, e = .InvalidBookingDatesError data.startDate data.endDate r ∧
      (data.endDate ≤ data.startDate ∨ data.startDate ≤ now)) ∨
    ((data.startDate < data.endDate ∧ now < data.startDate) ∧
     (e = .CarNotFoundError data.carId ∨
      e = .CarNotAvailableError data.carId data.startDate data.endDate)) := by
  unfold BookingService.createTx at h
  cases hd : BookingService.validateBookingDates data.startDate data.endDate now <;>
    rw [hd] at h
  · injection h with h1
    obtain ⟨hdates, r, hr⟩ := validateBookingDates_error_inv hd
    exact Or.inl ⟨r, h1 ▸ hr, hdates⟩
  · cases ha : BookingService.validateCarAvailability s data.carId data.startDate
        data.endDate none <;> rw [ha] at h
    · injection h with h1
      rename_i u _
      cases u
      exact Or.inr ⟨validateBookingDates_ok_iff.mp hd, h1 ▸ validateCarAvailability_error_inv ha⟩
    · simp at h

theorem createTx_error_of_carNotFound {s : Store} {data : BookingCreateData} {now : Int}
    (hd1 : data.startDate < data.endDate) (hd2 : now < data.startDate)
    (hc : CarRepository.get s.cars data.carId = .error (.CarNotFoundError data.carId)) :
    BookingService.createTx s data now = .error (.CarNotFoundError data.carId) := by
  unfold BookingService.createTx
  rw [validateBookingDates_ok_iff.mpr ⟨hd1, hd2⟩]
  unfold BookingService.validateCarAvailability
  rw [hc]

/-- Claim C2: `create` fails with `InvalidBookingDatesError` exactly when
`startDate >= endDate` or `startDate <= now` at the time of the call. -/
theorem C2_create_invalid_dates_iff (s : Store) (data : BookingCreateData) (now : Int) :
    (∃ sd ed r, (BookingService.create s data now).1 =
        .error (.InvalidBookingDatesError sd ed r)) ↔
      (data.startDate ≥ data.endDate ∨ data.startDate ≤ now) := by
  constructor
  · rintro ⟨sd, ed, r, hr⟩
    rcases createTx_error_inv (create_fst_error_iff.mp hr) with ⟨r2, _, hdates⟩ | ⟨_, h | h⟩
    · omega
    · simp at h
    · simp at h
  · intro h
    obtain ⟨r, hr⟩ := validateBookingDates_invalid
      (show data.endDate ≤ data.startDate ∨ data.startDate ≤ now by omega)
    refine ⟨data.startDate, data.endDate, r, create_fst_error_iff.mpr ?_⟩
    unfold BookingService.createTx
    rw [hr]

/-- Claim C2 witness: concrete valid and invalid instances. -/
theorem C2_create_invalid_dates_iff_witness :
    ∃ sd ed r, (BookingService.create { bookings := [], nextId := 1, cars := [] }
        { carId := 1, renterId := 2, state := .PENDING, startDate := 300, endDate := 200 } 0).1 =
      .error (.InvalidBookingDatesError sd ed r) :=
  (C2_create_invalid_dates_iff { bookings := [], nextId := 1, cars := [] }
    { carId := 1, renterId := 2, state := .PENDING, startDate := 300, endDate := 200 } 0).mpr
    (by decide)

/-- Claim C5: a successful `create` persists the booking with state forced to
PENDING, whatever state the caller supplied. -/
theorem C5_create_forces_pending (s : Store) (data : BookingCreateData) (now : Int)
    (b : Booking) (s2 : Store)
    (h : BookingService.create s data now = (.ok b, s2)) :
    b.state = BookingState.PENDING ∧ s2.bookings = s.bookings ++ [b] := by
  obtain ⟨hb, hs2, -, -, -⟩ := create_ok_inv h
  subst hb
  subst hs2
  exact ⟨rfl, rfl⟩

/-- Claim C5 witness: a caller-supplied CONFIRMED state is overridden. -/
theorem C5_create_forces_pending_witness :
    demoBooking.state = BookingState.PENDING ∧
    demoStore1.bookings = demoStore0.bookings ++ [demoBooking] :=
  C5_create_forces_pending demoStore0 demoCreateData 0 demoBooking demoStore1 rfl

/-- Claim C9: in `create`, invalid dates yield `InvalidBookingDatesError`
whatever the cars table holds, and with valid dates a missing car yields
`CarNotFoundError` whatever the bookings table holds. -/
theorem C9_create_check_order (s : Store) (data : BookingCreateData) (now : Int) :
    ((data.startDate ≥ data.endDate ∨ data.startDate ≤ now) →
      ∃ r, (BookingService.create s data now).1 =
        .error (.InvalidBookingDatesError data.startDate data.endDate r)) ∧
    (data.startDate < data.endDate → now < data.startDate →
      CarRepository.get s.cars data.carId = .error (.CarNotFoundError data.carId) →
      (BookingService.create s data now).1 = .error (.CarNotFoundError data.carId)) := by
  constructor
  · intro h
    obtain ⟨r, hr⟩ := validateBookingDates_invalid
      (show data.endDate ≤ data.startDate ∨ data.startDate ≤ now by omega)
    refine ⟨r, create_fst_error_iff.mpr ?_⟩
    unfold BookingService.createTx
    rw [hr]
  · intro h1 h2 hc
    exact create_fst_error_iff.mpr (createTx_error_of_carNotFound h1 h2 hc)

/-- Claim C9 witness: invalid dates (start not after now) on a store whose
cars table lacks the car, and valid dates with the same missing car. -/
theorem C9_create_check_order_witness :
    (∃ r, (BookingService.create demoStore0 { demoCreateData with carId := 7 } 150).1 =
        .error (.InvalidBookingDatesError 100 200 r)) ∧
    (BookingService.create demoStore0 { demoCreateData with carId := 7 } 0).1 =
      .error (.CarNotFoundError 7) :=
  ⟨(C9_create_check_order demoStore0 { demoCreateData with carId := 7 } 150).1 (by decide),
   (C9_create_check_order demoStore0 { demoCreateData with carId := 7 } 0).2
     (by decide) (by decide) rfl⟩

/-- Claim C6: a failing `create` or `update` leaves the store unchanged. -/
theorem C6_failure_rolls_back (s : Store) (data : BookingCreateData) (id : Nat)
    (updates : BookingUpdates) (userId : Nat) (now : Int) :
    (∀ e, (BookingService.create s data now).1 = .error e →
      (BookingService.create s data now).2 = s) ∧
    (∀ e, (BookingService.update s id updates userId now).1 = .error e →
      (BookingService.update s id updates userId now).2 = s) := by
  constructor
  · intro e he
    unfold BookingService.create at he ⊢
    cases hTx : BookingService.createTx s data now with
    | error e2 => rfl
    | ok p =>
      obtain ⟨b, s2⟩ := p
      rw [hTx] at he
      simp at he
  · intro e he
    unfold BookingService.update at he ⊢
    cases hTx : BookingService.updateTx s id updates userId now with
    | error e2 => rfl
    | ok p =>
      obtain ⟨b, s2⟩ := p
      rw [hTx] at he
      simp at he

/-- Claim C6 witness: an overlapping create and an update of a missing
booking both leave the one-booking store intact. -/
theorem C6_failure_rolls_back_witness :
    (BookingService.create demoStore1 { demoCreateData with startDate := 150 } 0).2 =
      demoStore1 ∧
    (BookingService.update demoStore1 9
        { state := none, startDate := none, endDate := none } 2 0).2 = demoStore1 :=
  ⟨(C6_failure_rolls_back demoStore1 { demoCreateData with startDate := 150 } 9
      { state := none, startDate := none, endDate := none } 2 0).1
      (.CarNotAvailableError 1 150 200) rfl,
   (C6_failure_rolls_back demoStore1 { demoCreateData with startDate := 150 } 9
      { state := none, startDate := none, endDate := none } 2 0).2
      (.BookingNotFoundError 9) rfl⟩

theorem bookingGet_ok_inv {l : List Booking} {id : Nat} {b : Booking}
    (h : BookingRepository.get l id = .ok b) : b ∈ l ∧ b.id = id := by
  unfold BookingRepository.get at h
  cases hf : l.find? (fun x => x.id == id) <;> rw [hf] at h
  · simp at h
  · injection h with h
    subst h
    have h1 := List.mem_of_find?_eq_some hf
    have h2 := List.find?_some hf
    simp at h2
    exact ⟨h1, h2⟩

theorem validate_error_inv {cur nxt : BookingState} {role : UserBookingRole} {id : Nat}
    {e : BookingError}
    (h : BookingStateTransitionValidator.validate cur nxt role id = .error e) :
    e = .InvalidBookingStateTransitionError id cur nxt := by
  rw [validate_eq] at h
  by_cases hA : allowedTransition cur nxt role = true
  · rw [if_pos hA] at h
    simp at h
  · rw [if_neg hA] at h
    exact (Except.error.inj h).symm

theorem assertBookingAccess_ok_iff {booking : Booking} {car : Car} {userId : Nat} :
    BookingService.assertBookingAccess booking car userId = .ok () ↔
      (booking.renterId = userId ∨ car.ownerId = userId) := by
  constructor
  · intro hok
    simp only [BookingService.assertBookingAccess] at hok
    split_ifs at hok with h
    push_neg at h
    by_cases hr : booking.renterId = userId
    · exact Or.inl hr
    · exact Or.inr (h hr)
  · intro hro
    simp only [BookingService.assertBookingAccess]
    split_ifs with h
    · tauto
    · rfl

theorem assertBookingAccess_error_inv {booking : Booking} {car : Car} {userId : Nat}
    {e : BookingError} (h : BookingService.assertBookingAccess booking car userId = .error e) :
    e = .BookingAccessDeniedError booking.id ∧
    booking.renterId ≠ userId ∧ car.ownerId ≠ userId := by
  simp only [BookingService.assertBookingAccess] at h
  split_ifs at h with hc
  injection h with h
  exact ⟨h.symm, hc⟩

theorem repoUpdate_error_inv {l : List Booking} {b : Booking} {e : BookingError}
    (h : BookingRepository.update l b = .error e) : e = .BookingNotFoundError b.id := by
  unfold BookingRepository.update at h
  split_ifs at h
  injection h with h
  exact h.symm

theorem bookingGet_error_inv {l : List Booking} {id : Nat} {e : BookingError}
    (h : BookingRepository.get l id = .error e) : e = .BookingNotFoundError id := by
  unfold BookingRepository.get at h
  cases hf : l.find? (fun x => x.id == id) with
  | none =>
    rw [hf] at h
    simp only at h
    exact (Except.error.inj h).symm
  | some b2 =>
    rw [hf] at h
    simp at h

theorem updateValidateState_error_inv {booking : Booking} {updates : BookingUpdates}
    {role : UserBookingRole} {id : Nat} {e : BookingError}
    (h : BookingService.updateValidateState booking updates role id = .error e) :
    ∃ ns, updates.state = some ns ∧
      e = .InvalidBookingStateTransitionError id booking.state ns := by
  unfold BookingService.updateValidateState at h
  cases hus : updates.state with
  | none =>
    rw [hus] at h
    simp at h
  | some ns =>
    rw [hus] at h
    simp only at h
    exact ⟨ns, rfl, validate_error_inv h⟩

theorem updateValidateDates_error_inv {s : Store} {booking : Booking}
    {updates : BookingUpdates} {id : Nat} {now : Int} {e : BookingError}
    (h : BookingService.updateValidateDates s booking updates id now = .error e) :
    (updates.startDate.isSome ∨ updates.endDate.isSome) ∧
    ((∃ sd ed r, e = .InvalidBookingDatesError sd ed r) ∨
     (∃ c sd ed, e = .CarNotAvailableError c sd ed) ∨
     (∃ c, e = .CarNotFoundError c)) := by
  unfold BookingService.updateValidateDates at h
  split_ifs at h with hc
  · refine ⟨by simpa using hc, ?_⟩
    cases hd : BookingService.validateBookingDates
        (updates.startDate.getD booking.startDate)
        (updates.endDate.getD booking.endDate) now <;> rw [hd] at h <;> simp only at h
    · obtain ⟨-, r, hr⟩ := validateBookingDates_error_inv hd
      exact Or.inl ⟨_, _, r, ((Except.error.inj h).symm).trans hr⟩
    · rcases validateCarAvailability_error_inv h with h2 | h2
      · exact Or.inr (Or.inr ⟨_, h2⟩)
      · exact Or.inr (Or.inl ⟨_, _, _, h2⟩)

/-- Every error a failing `updateTx` can return, with the access-denial
conditions attached and date-related errors only when a date was supplied. -/
theorem updateTx_error_shapes {s : Store} {id : Nat} {updates : BookingUpdates}
    {uid : Nat} {now : Int} {e : BookingError}
    (h : BookingService.updateTx s id updates uid now = .error e) :
    (∃ bid, e = .BookingNotFoundError bid) ∨
    (∃ cid, e = .CarNotFoundError cid) ∨
    (e = .BookingAccessDeniedError id ∧ ∃ booking car,
      BookingRepository.get s.bookings id = .ok booking ∧
      CarRepository.get s.cars booking.carId = .ok car ∧
      booking.renterId ≠ uid ∧ car.ownerId ≠ uid) ∨
    (∃ bid f t, e = .InvalidBookingStateTransitionError bid f t) ∨
    ((updates.startDate.isSome ∨ updates.endDate.isSome) ∧
      ((∃ sd ed r, e = .InvalidBookingDatesError sd ed r) ∨
       (∃ c sd ed, e = .CarNotAvailableError c sd ed))) := by
  unfold BookingService.updateTx at h
  cases hget : BookingRepository.get s.bookings id <;> rw [hget] at h <;> simp only at h
  · exact Or.inl ⟨id, ((Except.error.inj h).symm).trans (bookingGet_error_inv hget)⟩
  rename_i booking
  cases hcar : CarRepository.get s.cars booking.carId <;> rw [hcar] at h <;> simp only at h
  · exact Or.inr (Or.inl ⟨booking.carId,
      ((Except.error.inj h).symm).trans (carGet_error_inv hcar)⟩)
  rename_i car
  cases hacc : BookingService.assertBookingAccess booking car uid <;>
    rw [hacc] at h <;> simp only at h
  · obtain ⟨he, hr, ho⟩ := assertBookingAccess_error_inv hacc
    obtain ⟨-, hbid⟩ := bookingGet_ok_inv hget
    have he2 : e = BookingError.BookingAccessDeniedError id := by
      rw [(Except.error.inj h).symm, he, hbid]
    exact Or.inr (Or.inr (Or.inl ⟨he2, booking, car, rfl, hcar, hr, ho⟩))
  cases hvs : BookingService.updateValidateState booking updates
      (BookingService.callerRole car uid) id <;> rw [hvs] at h <;> simp only at h
  · obtain ⟨ns, -, he⟩ := updateValidateState_error_inv hvs
    exact Or.inr (Or.inr (Or.inr (Or.inl ⟨id, booking.state, ns,
      ((Except.error.inj h).symm).trans he⟩)))
  cases hvd : BookingService.updateValidateDates s booking updates id now <;>
    rw [hvd] at h <;> simp only at h
  · obtain ⟨hsome, hshape⟩ := updateValidateDates_error_inv hvd
    rcases hshape with h2 | h2 | h2
    · refine Or.inr (Or.inr (Or.inr (Or.inr ⟨hsome, Or.inl ?_⟩)))
      obtain ⟨sd, ed, r, hr⟩ := h2
      exact ⟨sd, ed, r, ((Except.error.inj h).symm).trans hr⟩
    · refine Or.inr (Or.inr (Or.inr (Or.inr ⟨hsome, Or.inr ?_⟩)))
      obtain ⟨c, sd, ed, hr⟩ := h2
      exact ⟨c, sd, ed, ((Except.error.inj h).symm).trans hr⟩
    · obtain ⟨c, hr⟩ := h2
      exact Or.inr (Or.inl ⟨c, ((Except.error.inj h).symm).trans hr⟩)
  cases hru : BookingRepository.update s.bookings
      (BookingService.mergedBooking booking updates id) <;> rw [hru] at h <;> simp only at h
  · exact Or.inl ⟨(BookingService.mergedBooking booking updates id).id,
      ((Except.error.inj h).symm).trans (repoUpdate_error_inv hru)⟩
  · simp at h

theorem update_fst_error_iff {s : Store} {id : Nat} {updates : BookingUpdates}
    {uid : Nat} {now : Int} {e : BookingError} :
    (BookingService.update s id updates uid now).1 = .error e ↔
      BookingService.updateTx s id updates uid now = .error e := by
  unfold BookingService.update
  cases hTx : BookingService.updateTx s id updates uid now with
  | error e2 => simp
  | ok p => obtain ⟨b, s2⟩ := p; simp

theorem updateTx_ok_inv {s : Store} {id : Nat} {updates : BookingUpdates} {uid : Nat}
    {now : Int} {p : Booking × Store}
    (h : BookingService.updateTx s id updates uid now = .ok p) :
    ∃ booking car,
      BookingRepository.get s.bookings id = .ok booking ∧
      CarRepository.get s.cars booking.carId = .ok car ∧
      (booking.renterId = uid ∨ car.ownerId = uid) ∧
      BookingService.updateValidateState booking updates
        (BookingService.callerRole car uid) id = .ok () ∧
      BookingService.updateValidateDates s booking updates id now = .ok () ∧
      p.1 = BookingService.mergedBooking booking updates id ∧
      p.2 = { s with bookings := BookingRepository.replaceById s.bookings p.1 } := by
  unfold BookingService.updateTx at h
  cases hget : BookingRepository.get s.bookings id with
  | error e =>
    rw [hget] at h
    simp at h
  | ok booking =>
    rw [hget] at h
    simp only at h
    cases hcar : CarRepository.get s.cars booking.carId with
    | error e =>
      rw [hcar] at h
      simp at h
    | ok car =>
      rw [hcar] at h
      simp only at h
      cases hacc : BookingService.assertBookingAccess booking car uid with
      | error e =>
        rw [hacc] at h
        simp at h
      | ok u =>
        cases u
        rw [hacc] at h
        simp only at h
        cases hvs : BookingService.updateValidateState booking updates
            (BookingService.callerRole car uid) id with
        | error e =>
          rw [hvs] at h
          simp at h
        | ok u2 =>
          cases u2
          rw [hvs] at h
          simp only at h
          cases hvd : BookingService.updateValidateDates s booking updates id now with
          | error e =>
            rw [hvd] at h
            simp at h
          | ok u3 =>
            cases u3
            rw [hvd] at h
            simp only at h
            cases hru : BookingRepository.update s.bookings
                (BookingService.mergedBooking booking updates id) with
            | error e =>
              rw [hru] at h
              simp at h
            | ok l2 =>
              rw [hru] at h
              simp only at h
              have hl2 : l2 = BookingRepository.replaceById s.bookings
                  (BookingService.mergedBooking booking updates id) := by
                unfold BookingRepository.update at hru
                split_ifs at hru
                exact (Except.ok.inj hru).symm
              injection h with h
              refine ⟨booking, car, rfl, hcar, assertBookingAccess_ok_iff.mp hacc,
                hvs, hvd, ?_, ?_⟩
              · rw [← h]
              · rw [← h]
                simp only
                rw [hl2]

theorem updateTx_denied {s : Store} {id : Nat} {updates : BookingUpdates} {uid : Nat}
    {now : Int} {booking : Booking} {car : Car}
    (hb : BookingRepository.get s.bookings id = .ok booking)
    (hc : CarRepository.get s.cars booking.carId = .ok car)
    (hr : booking.renterId ≠ uid) (ho : car.ownerId ≠ uid) :
    BookingService.updateTx s id updates uid now =
      .error (.BookingAccessDeniedError id) := by
  unfold BookingService.updateTx
  rw [hb]
  simp only
  rw [hc]
  simp only
  have hacc : BookingService.assertBookingAccess booking car uid =
      .error (.BookingAccessDeniedError booking.id) := by
    simp only [BookingService.assertBookingAccess]
    rw [if_pos ⟨hr, ho⟩]
  rw [hacc]
  simp only
  rw [(bookingGet_ok_inv hb).2]

theorem get_denied_iff {s : Store} {id : Nat} {uid : Nat} {booking : Booking} {car : Car}
    (hb : BookingRepository.get s.bookings id = .ok booking)
    (hc : CarRepository.get s.cars booking.carId = .ok car) :
    BookingService.get s id uid = .error (.BookingAccessDeniedError id) ↔
      (booking.renterId ≠ uid ∧ car.ownerId ≠ uid) := by
  unfold BookingService.get
  rw [hb]
  simp only
  rw [hc]
  simp only
  cases hacc : BookingService.assertBookingAccess booking car uid with
  | error e2 =>
    obtain ⟨he, hr, ho⟩ := assertBookingAccess_error_inv hacc
    simp only
    constructor
    · intro _
      exact ⟨hr, ho⟩
    · intro _
      rw [he, (bookingGet_ok_inv hb).2]
  | ok u =>
    cases u
    simp only
    constructor
    · intro hcontra
      simp at hcontra
    · rintro ⟨hr, ho⟩
      rcases assertBookingAccess_ok_iff.mp hacc with h2 | h2
      · exact absurd h2 hr
      · exact absurd h2 ho

theorem update_ok_iff {s : Store} {id : Nat} {updates : BookingUpdates} {uid : Nat}
    {now : Int} {b : Booking} {s2 : Store} :
    BookingService.update s id updates uid now = (.ok b, s2) ↔
      BookingService.updateTx s id updates uid now = .ok (b, s2) := by
  unfold BookingService.update
  cases hTx : BookingService.updateTx s id updates uid now with
  | error e => simp
  | ok p =>
    obtain ⟨b2, s22⟩ := p
    simp

theorem mem_replaceById_self {l : List Booking} {nb : Booking} {x : Booking}
    (hx : x ∈ l) (hid : x.id = nb.id) : nb ∈ BookingRepository.replaceById l nb := by
  induction l with
  | nil => cases hx
  | cons hd tl ih =>
    unfold BookingRepository.replaceById
    by_cases hh : hd.id = nb.id
    · rw [if_pos hh]
      exact List.mem_cons_self _ _
    · rw [if_neg hh]
      rcases List.mem_cons.mp hx with rfl | hx2
      · exact absurd hid hh
      · exact List.mem_cons_of_mem _ (ih hx2)

/-- Claim C7: an update supplying only a state performs no date validation
and no availability check: neither `InvalidBookingDatesError` nor
`CarNotAvailableError` can arise, and the call does not depend on the
current time. -/
theorem C7_state_only_update_skips_date_checks (s : Store) (id : Nat)
    (newState : BookingState) (userId : Nat) (now now2 : Int) :
    (∀ sd ed r, (BookingService.update s id
        { state := some newState, startDate := none, endDate := none } userId now).1 ≠
      .error (.InvalidBookingDatesError sd ed r)) ∧
    (∀ c sd ed, (BookingService.update s id
        { state := some newState, startDate := none, endDate := none } userId now).1 ≠
      .error (.CarNotAvailableError c sd ed)) ∧
    BookingService.update s id
        { state := some newState, startDate := none, endDate := none } userId now =
      BookingService.update s id
        { state := some newState, startDate := none, endDate := none } userId now2 := by
  refine ⟨?_, ?_, rfl⟩
  · intro sd ed r hcontra
    rcases updateTx_error_shapes (update_fst_error_iff.mp hcontra) with
      ⟨bid, h2⟩ | ⟨cid, h2⟩ | ⟨h2, -⟩ | ⟨bid, f, t, h2⟩ | ⟨hsome, -⟩
    · simp at h2
    · simp at h2
    · simp at h2
    · simp at h2
    · rcases hsome with hs | hs <;> simp at hs
  · intro c sd ed hcontra
    rcases updateTx_error_shapes (update_fst_error_iff.mp hcontra) with
      ⟨bid, h2⟩ | ⟨cid, h2⟩ | ⟨h2, -⟩ | ⟨bid, f, t, h2⟩ | ⟨hsome, -⟩
    · simp at h2
    · simp at h2
    · simp at h2
    · simp at h2
    · rcases hsome with hs | hs <;> simp at hs

/-- Claim C7 witness: a state-only update on the demo store raises no
date-related error and ignores the current time. -/
theorem C7_state_only_update_skips_date_checks_witness :
    (BookingService.update demoStore1 1
        { state := some .CONFIRMED, startDate := none, endDate := none } 10 0).1 ≠
      .error (.InvalidBookingDatesError 100 200 "Start date must be in the future") ∧
    (BookingService.update demoStore1 1
        { state := some .CONFIRMED, startDate := none, endDate := none } 10 0).1 ≠
      .error (.CarNotAvailableError 1 100 200) ∧
    BookingService.update demoStore1 1
        { state := some .CONFIRMED, startDate := none, endDate := none } 10 0 =
      BookingService.update demoStore1 1
        { state := some .CONFIRMED, startDate := none, endDate := none } 10 999 :=
  ⟨(C7_state_only_update_skips_date_checks demoStore1 1 .CONFIRMED 10 0 999).1
      100 200 "Start date must be in the future",
   (C7_state_only_update_skips_date_checks demoStore1 1 .CONFIRMED 10 0 999).2.1 1 100 200,
   (C7_state_only_update_skips_date_checks demoStore1 1 .CONFIRMED 10 0 999).2.2⟩

/-- Claim C8: with the booking and its car present, `get` and `update` fail
with `BookingAccessDeniedError` exactly when the caller is neither the
booking's renter nor the car's owner. -/
theorem C8_access_denied_iff (s : Store) (id uid : Nat) (booking : Booking) (car : Car)
    (hb : BookingRepository.get s.bookings id = .ok booking)
    (hc : CarRepository.get s.cars booking.carId = .ok car) :
    (BookingService.get s id uid = .error (.BookingAccessDeniedError id) ↔
      (uid ≠ booking.renterId ∧ uid ≠ car.ownerId)) ∧
    (∀ updates now, (BookingService.update s id updates uid now).1 =
        .error (.BookingAccessDeniedError id) ↔
      (uid ≠ booking.renterId ∧ uid ≠ car.ownerId)) := by
  constructor
  · rw [get_denied_iff hb hc]
    constructor
    · rintro ⟨h1, h2⟩
      exact ⟨Ne.symm h1, Ne.symm h2⟩
    · rintro ⟨h1, h2⟩
      exact ⟨Ne.symm h1, Ne.symm h2⟩
  · intro updates now
    constructor
    · intro hcontra
      rcases updateTx_error_shapes (update_fst_error_iff.mp hcontra) with
        ⟨bid, h2⟩ | ⟨cid, h2⟩ | ⟨-, booking2, car2, hb2, hc2, hr, ho⟩ |
        ⟨bid, f, t, h2⟩ | ⟨-, ⟨sd, ed, r, h2⟩ | ⟨c, sd, ed, h2⟩⟩
      · simp at h2
      · simp at h2
      · have hbeq : booking2 = booking := Except.ok.inj (hb2.symm.trans hb)
        subst hbeq
        have hceq : car2 = car := Except.ok.inj (hc2.symm.trans hc)
        subst hceq
        exact ⟨Ne.symm hr, Ne.symm ho⟩
      · simp at h2
      · simp at h2
      · simp at h2
    · rintro ⟨h1, h2⟩
      exact update_fst_error_iff.mpr (updateTx_denied hb hc (Ne.symm h1) (Ne.symm h2))

/-- Claim C8 witness: user 3 is neither renter 2 nor owner 10 of the demo
booking. -/
theorem C8_access_denied_iff_witness :
    (BookingService.get demoStore1 1 3 = .error (.BookingAccessDeniedError 1) ↔
      ((3 : Nat) ≠ demoBooking.renterId ∧ (3 : Nat) ≠ demoCar.ownerId)) ∧
    ((BookingService.update demoStore1 1
        { state := none, startDate := none, endDate := none } 3 0).1 =
        .error (.BookingAccessDeniedError 1) ↔
      ((3 : Nat) ≠ demoBooking.renterId ∧ (3 : Nat) ≠ demoCar.ownerId)) :=
  ⟨(C8_access_denied_iff demoStore1 1 3 demoBooking demoCar rfl rfl).1,
   (C8_access_denied_iff demoStore1 1 3 demoBooking demoCar rfl rfl).2
     { state := none, startDate := none, endDate := none } 0⟩

/-- Claim C10: a successful `update` keeps the stored booking's id, carId and
renterId, sets exactly the supplied fields, and keeps the prior values of the
unsupplied ones; the merged booking is persisted. -/
theorem C10_update_frame (s : Store) (id : Nat) (updates : BookingUpdates)
    (userId : Nat) (now : Int) (b : Booking) (s2 : Store) (booking : Booking)
    (h : BookingService.update s id updates userId now = (.ok b, s2))
    (hb : BookingRepository.get s.bookings id = .ok booking) :
    b.id = booking.id ∧ b.carId = booking.carId ∧ b.renterId = booking.renterId ∧
    b.state = updates.state.getD booking.state ∧
    b.startDate = updates.startDate.getD booking.startDate ∧
    b.endDate = updates.endDate.getD booking.endDate ∧
    b ∈ s2.bookings := by
  obtain ⟨booking2, car, hb2, hc2, hacc, hvs, hvd, hp1, hp2⟩ :=
    updateTx_ok_inv (update_ok_iff.mp h)
  have hbeq : booking2 = booking := Except.ok.inj (hb2.symm.trans hb)
  subst hbeq
  obtain ⟨hmem, hbid⟩ := bookingGet_ok_inv hb2
  simp only at hp1 hp2
  constructor
  · rw [hp1, hbid]
    rfl
  refine ⟨by rw [hp1]; rfl, by rw [hp1]; rfl, by rw [hp1]; rfl, by rw [hp1]; rfl,
    by rw [hp1]; rfl, ?_⟩
  rw [hp2]
  simp only
  have hbid2 : booking2.id = b.id := by
    rw [hp1, hbid]
    rfl
  exact mem_replaceById_self hmem hbid2

theorem replaceById_map_id (l : List Booking) (nb : Booking) :
    (BookingRepository.replaceById l nb).map (fun b => b.id) =
      l.map (fun b => b.id) := by
  induction l with
  | nil => rfl
  | cons hd tl ih =>
    unfold BookingRepository.replaceById
    by_cases hh : hd.id = nb.id
    · rw [if_pos hh]
      simp [hh]
    · rw [if_neg hh]
      simp [ih]

theorem uniqueIds_iff_map {l : List Booking} :
    UniqueIds l ↔ (l.map (fun b => b.id)).Pairwise (fun a b => a ≠ b) := by
  unfold UniqueIds
  rw [List.pairwise_map]

theorem uniqueIds_replaceById {l : List Booking} {nb : Booking} (hu : UniqueIds l) :
    UniqueIds (BookingRepository.replaceById l nb) := by
  rw [uniqueIds_iff_map, replaceById_map_id, ← uniqueIds_iff_map]
  exact hu

theorem idsBound_replaceById {l : List Booking} {nb : Booking} {bound : Nat}
    (hb : ∀ b ∈ l, b.id < bound) :
    ∀ b ∈ BookingRepository.replaceById l nb, b.id < bound := by
  intro b hbm
  have hmap : b.id ∈ (BookingRepository.replaceById l nb).map (fun x => x.id) :=
    List.mem_map_of_mem _ hbm
  rw [replaceById_map_id] at hmap
  obtain ⟨a, ha, hae⟩ := List.mem_map.mp hmap
  exact hae ▸ hb a ha

theorem mem_replaceById {l : List Booking} {nb x : Booking}
    (hu : UniqueIds l) (hx : x ∈ BookingRepository.replaceById l nb) :
    x = nb ∨ (x ∈ l ∧ x.id ≠ nb.id) := by
  induction l with
  | nil => cases hx
  | cons hd tl ih =>
    unfold BookingRepository.replaceById at hx
    rw [UniqueIds, List.pairwise_cons] at hu
    obtain ⟨hhd, htl⟩ := hu
    by_cases hh : hd.id = nb.id
    · rw [if_pos hh] at hx
      rcases List.mem_cons.mp hx with rfl | hx2
      · exact Or.inl rfl
      · refine Or.inr ⟨List.mem_cons_of_mem _ hx2, fun hxe => ?_⟩
        exact hhd x hx2 (by rw [hh, ← hxe])
    · rw [if_neg hh] at hx
      rcases List.mem_cons.mp hx with rfl | hx2
      · exact Or.inr ⟨List.mem_cons_self _ _, hh⟩
      · rcases ih htl hx2 with h | ⟨hm, hne⟩
        · exact Or.inl h
        · exact Or.inr ⟨List.mem_cons_of_mem _ hm, hne⟩

theorem validate_from_canceled {ns : BookingState} {role : UserBookingRole} {id : Nat}
    (h : BookingStateTransitionValidator.validate .CANCELED ns role id = .ok ()) :
    ns = .CANCELED := by
  rw [validate_eq] at h
  by_cases hA : allowedTransition .CANCELED ns role = true
  · cases ns <;> cases role <;> simp_all [allowedTransition]
  · rw [if_neg hA] at h
    simp at h

theorem updateValidateState_ok_inv {booking : Booking} {updates : BookingUpdates}
    {role : UserBookingRole} {id : Nat}
    (h : BookingService.updateValidateState booking updates role id = .ok ())
    {ns : BookingState} (hns : updates.state = some ns) :
    BookingStateTransitionValidator.validate booking.state ns role id = .ok () := by
  unfold BookingService.updateValidateState at h
  rw [hns] at h
  exact h

theorem updateValidateDates_ok_inv {s : Store} {booking : Booking}
    {updates : BookingUpdates} {id : Nat} {now : Int}
    (h : BookingService.updateValidateDates s booking updates id now = .ok ())
    (hdates : updates.startDate.isSome ∨ updates.endDate.isSome) :
    updates.startDate.getD booking.startDate < updates.endDate.getD booking.endDate ∧
    now < updates.startDate.getD booking.startDate ∧
    BookingRepository.findOverlappingBookings s.bookings booking.carId
      (updates.startDate.getD booking.startDate)
      (updates.endDate.getD booking.endDate) (some id) = [] := by
  unfold BookingService.updateValidateDates at h
  rw [if_pos (by simpa using hdates)] at h
  cases hd2 : BookingService.validateBookingDates
      (updates.startDate.getD booking.startDate)
      (updates.endDate.getD booking.endDate) now with
  | error e =>
    rw [hd2] at h
    simp at h
  | ok u =>
    cases u
    rw [hd2] at h
    simp only at h
    obtain ⟨hv1, hv2⟩ := validateBookingDates_ok_iff.mp hd2
    obtain ⟨-, hov⟩ := validateCarAvailability_ok_inv h
    exact ⟨hv1, hv2, hov⟩

theorem goodStore_create {s : Store} {data : BookingCreateData} {now : Int}
    {b : Booking} {s2 : Store} (hg : GoodStore s)
    (h : BookingService.create s data now = (.ok b, s2)) : GoodStore s2 := by
  obtain ⟨hb, hs2, hov, -, -⟩ := create_ok_inv h
  obtain ⟨hu, hbound, hno⟩ := hg
  subst hs2
  have hbid : b.id = s.nextId := by rw [hb]
  have hbcar : b.carId = data.carId := by rw [hb]
  have hbsd : b.startDate = data.startDate := by rw [hb]
  have hbed : b.endDate = data.endDate := by rw [hb]
  refine ⟨?_, ?_, ?_⟩
  · rw [UniqueIds, List.pairwise_append]
    refine ⟨hu, List.pairwise_singleton _ _, ?_⟩
    intro a ha b2 hb2
    rw [List.mem_singleton] at hb2
    subst hb2
    rw [hbid]
    exact Nat.ne_of_lt (hbound a ha)
  · intro x hx
    simp only at hx ⊢
    rcases List.mem_append.mp hx with hx2 | hx2
    · exact Nat.lt_succ_of_lt (hbound x hx2)
    · rw [List.mem_singleton] at hx2
      subst hx2
      rw [hbid]
      exact Nat.lt_succ_self _
  · intro b1 h1 b2 h2 hne hcar hst1 hst2
    simp only at h1 h2
    rcases List.mem_append.mp h1 with h1m | h1m <;>
      rcases List.mem_append.mp h2 with h2m | h2m
    · exact hno b1 h1m b2 h2m hne hcar hst1 hst2
    · rw [List.mem_singleton] at h2m
      subst h2m
      rintro ⟨ho1, ho2⟩
      refine findOverlapping_nil_no_overlap hov b1 h1m (by simp) ?_ hst1 ⟨?_, ?_⟩
      · rw [hcar, hbcar]
      · rw [← hbsd]
        exact ho2
      · rw [← hbed]
        exact ho1
    · rw [List.mem_singleton] at h1m
      subst h1m
      rintro ⟨ho1, ho2⟩
      refine findOverlapping_nil_no_overlap hov b2 h2m (by simp) ?_ hst2 ⟨?_, ?_⟩
      · rw [← hcar, hbcar]
      · rw [← hbsd]
        exact ho1
      · rw [← hbed]
        exact ho2
    · rw [List.mem_singleton] at h1m h2m
      subst h1m
      subst h2m
      exact absurd rfl hne

theorem goodStore_update {s : Store} {id : Nat} {updates : BookingUpdates}
    {uid : Nat} {now : Int} {b : Booking} {s2 : Store} (hg : GoodStore s)
    (h : BookingService.update s id updates uid now = (.ok b, s2)) : GoodStore s2 := by
  obtain ⟨booking, car, hget, hcar, hacc, hvs, hvd, hp1, hp2⟩ :=
    updateTx_ok_inv (update_ok_iff.mp h)
  obtain ⟨hu, hbound, hno⟩ := hg
  obtain ⟨hmem, hbid⟩ := bookingGet_ok_inv hget
  simp only at hp1 hp2
  subst hp2
  have hbId : b.id = id := by rw [hp1]; rfl
  have hbCar : b.carId = booking.carId := by rw [hp1]; rfl
  have hbState : b.state = updates.state.getD booking.state := by rw [hp1]; rfl
  have hbSd : b.startDate = updates.startDate.getD booking.startDate := by rw [hp1]; rfl
  have hbEd : b.endDate = updates.endDate.getD booking.endDate := by rw [hp1]; rfl
  have hstOld : b.state ≠ BookingState.CANCELED →
      booking.state ≠ BookingState.CANCELED := by
    intro hst hcontra
    cases hus : updates.state with
    | none =>
      apply hst
      rw [hbState, hus, hcontra]
      rfl
    | some ns =>
      have hval := updateValidateState_ok_inv hvs hus
      rw [hcontra] at hval
      have hns := validate_from_canceled hval
      apply hst
      rw [hbState, hus, hns]
      rfl
  have key : ∀ o ∈ s.bookings, o.id ≠ b.id → o.carId = b.carId →
      o.state ≠ BookingState.CANCELED → b.state ≠ BookingState.CANCELED →
      ¬(b.startDate < o.endDate ∧ o.startDate < b.endDate) := by
    intro o hom hone hocar host hbst
    by_cases hdates : updates.startDate.isSome ∨ updates.endDate.isSome
    · obtain ⟨-, -, hov⟩ := updateValidateDates_ok_inv hvd hdates
      rintro ⟨ho1, ho2⟩
      refine findOverlapping_nil_no_overlap hov o hom ?_ ?_ host ⟨?_, ?_⟩
      · intro hcontra
        exact hone (by rw [hbId]; exact (Option.some.inj hcontra).symm)
      · rw [hocar, hbCar]
      · rw [← hbSd]
        exact ho1
      · rw [← hbEd]
        exact ho2
    · have hsd : updates.startDate = none := by
        cases hq : updates.startDate
        · rfl
        · exact absurd (Or.inl (by rw [hq]; rfl)) hdates
      have hed : updates.endDate = none := by
        cases hq : updates.endDate
        · rfl
        · exact absurd (Or.inr (by rw [hq]; rfl)) hdates
      have hb1sd : b.startDate = booking.startDate := by
        rw [hbSd, hsd]
        rfl
      have hb1ed : b.endDate = booking.endDate := by
        rw [hbEd, hed]
        rfl
      have hstB : booking.state ≠ BookingState.CANCELED := hstOld hbst
      have hioNe : booking.id ≠ o.id := by
        rw [hbid]
        intro hcontra
        exact hone (by rw [hbId, ← hcontra])
      have hres := hno booking hmem o hom hioNe (by rw [← hbCar, ← hocar]) hstB host
      rintro ⟨ho1, ho2⟩
      refine hres ⟨?_, ?_⟩
      · rw [← hb1sd]
        exact ho1
      · rw [← hb1ed]
        exact ho2
  refine ⟨uniqueIds_replaceById hu, ?_, ?_⟩
  · intro x hx
    simp only at hx ⊢
    exact idsBound_replaceById hbound x hx
  · intro b1 h1 b2 h2 hne hcarEq hst1 hst2
    simp only at h1 h2
    rcases mem_replaceById hu h1 with h1e | ⟨h1m, h1ne⟩ <;>
      rcases mem_replaceById hu h2 with h2e | ⟨h2m, h2ne⟩
    · subst h1e
      subst h2e
      exact absurd rfl hne
    · subst h1e
      exact key b2 h2m (Ne.symm hne) (Eq.symm hcarEq) hst2 hst1
    · subst h2e
      rintro ⟨g1, g2⟩
      exact key b1 h1m h1ne hcarEq hst1 hst2 ⟨g2, g1⟩
    · exact hno b1 h1m b2 h2m hne hcarEq hst1 hst2

theorem reachable_goodStore {s : Store} (h : Reachable s) : GoodStore s := by
  induction h with
  | init cars =>
    refine ⟨List.Pairwise.nil, ?_, ?_⟩
    · intro b hb
      cases hb
    · intro b1 h1
      cases h1
  | create s data now b s2 hr hstep ih => exact goodStore_create ih hstep
  | update s id updates userId now b s2 hr hstep ih => exact goodStore_update ih hstep

/-- Claim C1: in any store reachable from the empty booking store by
successful `create` and `update` calls, no two distinct non-CANCELED bookings
on the same car have overlapping half-open `[startDate, endDate)` intervals. -/
theorem C1_no_overlapping_active_bookings (s : Store) (h : Reachable s) :
    ∀ b1 ∈ s.bookings, ∀ b2 ∈ s.bookings, b1.id ≠ b2.id → b1.carId = b2.carId →
      b1.state ≠ BookingState.CANCELED → b2.state ≠ BookingState.CANCELED →
      ¬(b1.startDate < b2.endDate ∧ b2.startDate < b1.endDate) :=
  fun b1 h1 b2 h2 => (reachable_goodStore h).2.2 b1 h1 b2 h2

/-- Claim C1 witness: in the store reached by two successful creates, the two
stored bookings on car 1 do not overlap. -/
theorem C1_no_overlapping_active_bookings_witness :
    ¬(demoBooking.startDate < demoBooking2.endDate ∧
      demoBooking2.startDate < demoBooking.endDate) :=
  C1_no_overlapping_active_bookings demoStore3
    (Reachable.create demoStore1 { demoCreateData with startDate := 200, endDate := 300 } 0
      demoBooking2 demoStore3
      (Reachable.create demoStore0 demoCreateData 0 demoBooking demoStore1
        (Reachable.init [demoCar]) rfl) rfl)
    demoBooking (by decide) demoBooking2 (by decide) (by decide) (by decide)
    (by decide) (by decide)

/-- Claim C3 witness: the owner may confirm a pending booking; the renter
attempting the same transition is rejected with the carried data. -/
theorem C3_state_transition_validation_witness :
    BookingStateTransitionValidator.validate .PENDING .CONFIRMED .OWNER 1 = .ok () ∧
    BookingStateTransitionValidator.validate .PENDING .CONFIRMED .RENTER 1 =
      .error (.InvalidBookingStateTransitionError 1 .PENDING .CONFIRMED) :=
  ⟨((C3_state_transition_validation .PENDING .CONFIRMED .OWNER 1).2.1
      (by decide)).mpr (Or.inl ⟨rfl, rfl, rfl⟩),
   (C3_state_transition_validation .PENDING .CONFIRMED .RENTER 1).2.2
      (fun hcontra => Except.noConfusion hcontra)⟩

/-- Claim C4 witness: an adjacent candidate interval starting exactly at the
demo booking's end is not reported as overlapping. -/
theorem C4_findOverlappingBookings_exact_witness :
    demoBooking ∉ BookingRepository.findOverlappingBookings [demoBooking] 1 200 300 none :=
  (C4_findOverlappingBookings_exact [demoBooking] 1 200 300 none demoBooking).2.1 rfl

/-- Claim C10 witness: the owner's state-only update keeps every other field. -/
theorem C10_update_frame_witness :
    demoBookingConfirmed.id = demoBooking.id ∧
    demoBookingConfirmed.carId = demoBooking.carId ∧
    demoBookingConfirmed.renterId = demoBooking.renterId ∧
    demoBookingConfirmed.state = (some BookingState.CONFIRMED).getD demoBooking.state ∧
    demoBookingConfirmed.startDate = (none : Option Int).getD demoBooking.startDate ∧
    demoBookingConfirmed.endDate = (none : Option Int).getD demoBooking.endDate ∧
    demoBookingConfirmed ∈ demoStore2.bookings :=
  C10_update_frame demoStore1 1
    { state := some .CONFIRMED, startDate := none, endDate := none } 10 0
    demoBookingConfirmed demoStore2 demoBooking rfl rfl

end Carsharing
